import Mathlib

/-!
Verification of the friend-relationship and visibility-query layer of a
social-media backend (FastAPI + SQLModel).  The relational store is embedded
shallowly: each table is a list of rows, timestamps are natural numbers of
seconds, and every service function from `src/services` is translated into a
pure Lean function on a `Store`.  SQL `first()` on an unordered `SELECT` is
modelled as the first matching row in table (insertion) order, and
`DISTINCT` as `List.dedup`.
-/

namespace SocialMedia

/-- A row of the user table (src/models/user.py). -/
structure User where
  id : Nat
  clerk_user_id : String
  name : String
  created_at : Nat
deriving Repr, DecidableEq

/-- A row of the friend table (src/models/friend.py); `status` is the raw
string column, intended values `pending`, `accepted`, `blocked`. -/
structure Friend where
  id : Nat
  user_id : Nat
  friend_id : Nat
  status : String
deriving Repr, DecidableEq

/-- A row of the post table (src/models/post.py). -/
structure Post where
  id : Nat
  user_id : Nat
  content : String
  media_url : Option String
  media_type : Option String
  created_at : Nat
  updated_at : Nat
deriving Repr, DecidableEq

/-- A row of the comment table (src/models/comment.py). -/
structure Comment where
  id : Nat
  post_id : Nat
  user_id : Nat
  parent_comment_id : Option Nat
  content : String
  created_at : Nat
deriving Repr, DecidableEq

/-- A row of the story table (src/models/story.py). -/
structure Story where
  id : Nat
  user_id : Nat
  media_url : String
  media_type : String
  created_at : Nat
  expires_at : Nat
deriving Repr, DecidableEq

/-- The relational store: one list of rows per table. -/
structure Store where
  users : List User
  friends : List Friend
  posts : List Post
  comments : List Comment
  stories : List Story
deriving Repr, DecidableEq

/-- The store the application starts from: every table empty. -/
def emptyStore : Store :=
  { users := [], friends := [], posts := [], comments := [], stories := [] }

/-- Replace the first element satisfying `p` by its image under `g`;
`none` when no element matches.  Models fetching the `first()` row of a
filtered SELECT and saving a field update back. -/
def updateFirst {α : Type} (p : α → Bool) (g : α → α) : List α → Option (List α)
  | [] => none
  | x :: xs => if p x then some (g x :: xs) else (updateFirst p g xs).map (x :: ·)

/-- Delete the first element satisfying `p`; `none` when no element matches.
Models fetching the `first()` row of a filtered SELECT and deleting it. -/
def removeFirst {α : Type} (p : α → Bool) : List α → Option (List α)
  | [] => none
  | x :: xs => if p x then some xs else (removeFirst p xs).map (x :: ·)

/-- get_user_by_id (src/services/user_service.py): first user row with the
given id. -/
def get_user_by_id (s : Store) (user_id : Nat) : Option User :=
  s.users.find? (fun u => u.id == user_id)

/-- create_user (src/services/user_service.py): insert the row. -/
def create_user (s : Store) (u : User) : Store :=
  { s with users := s.users ++ [u] }

/-- The `exclude_unset` field set of an update request body: each field is
either absent (`none`) or supplies a new value. -/
structure UserPatch where
  id : Option Nat := none
  clerk_user_id : Option String := none
  name : Option String := none
  created_at : Option Nat := none

/-- Overwrite exactly the fields present in the patch (the
`setattr` loop of update_user). -/
def applyPatch (p : UserPatch) (u : User) : User :=
  { id := p.id.getD u.id
    clerk_user_id := p.clerk_user_id.getD u.clerk_user_id
    name := p.name.getD u.name
    created_at := p.created_at.getD u.created_at }

/-- update_user (src/services/user_service.py): merge the provided fields
onto the existing row; `false` with the store unchanged when the id is
absent. -/
def update_user (s : Store) (user_id : Nat) (p : UserPatch) : Store × Bool :=
  match updateFirst (fun u => u.id == user_id) (applyPatch p) s.users with
  | none => (s, false)
  | some us => ({ s with users := us }, true)

/-- delete_user (src/services/user_service.py): delete the row with the
given id, no cascade. -/
def delete_user (s : Store) (user_id : Nat) : Store × Bool :=
  match removeFirst (fun u => u.id == user_id) s.users with
  | none => (s, false)
  | some us => ({ s with users := us }, true)

/-- get_friends (src/services/user_service.py, lines 48-57): SELECT DISTINCT
User JOIN Friend WHERE Friend.user_id = user_id AND Friend.friend_id =
User.id AND Friend.status = accepted. -/
def get_friends (s : Store) (user_id : Nat) : List User :=
  (s.users.filter (fun u =>
    s.friends.any (fun f =>
      f.user_id == user_id && f.friend_id == u.id && f.status == "accepted"))).dedup

/-- get_pending_friend_requests (src/services/user_service.py): SELECT
DISTINCT User JOIN Friend WHERE Friend.friend_id = user_id AND
Friend.status = pending AND Friend.user_id = User.id. -/
def get_pending_friend_requests (s : Store) (user_id : Nat) : List User :=
  (s.users.filter (fun u =>
    s.friends.any (fun f =>
      f.friend_id == user_id && f.status == "pending" && f.user_id == u.id))).dedup

/-- The WHERE clause of accept_friend_request and reject_friend_request:
a pending row directed friend_id → user_id. -/
def acceptMatch (user_id friend_id : Nat) (f : Friend) : Bool :=
  f.user_id == friend_id && f.friend_id == user_id && f.status == "pending"

/-- accept_friend_request (src/services/user_service.py, lines 71-83): flip
the first pending row directed friend_id → user_id to accepted; `false`
with the store unchanged when none exists. -/
def accept_friend_request (s : Store) (user_id friend_id : Nat) : Store × Bool :=
  match updateFirst (acceptMatch user_id friend_id)
      (fun f => { f with status := "accepted" }) s.friends with
  | none => (s, false)
  | some fs => ({ s with friends := fs }, true)

/-- reject_friend_request (src/services/user_service.py): delete the first
pending row directed friend_id → user_id. -/
def reject_friend_request (s : Store) (user_id friend_id : Nat) : Store × Bool :=
  match removeFirst (acceptMatch user_id friend_id) s.friends with
  | none => (s, false)
  | some fs => ({ s with friends := fs }, true)

/-- send_friend_request (src/services/user_service.py, lines 100-112):
refuse when any row directed user_id → friend_id exists (whatever its
status); otherwise insert a fresh pending row in that direction.  `new_id`
is the id the store generates for the inserted row. -/
def send_friend_request (s : Store) (new_id user_id friend_id : Nat) :
    Store × Bool :=
  if s.friends.any (fun f => f.user_id == user_id && f.friend_id == friend_id)
  then (s, false)
  else ({ s with friends := s.friends ++
          [{ id := new_id, user_id := user_id, friend_id := friend_id,
             status := "pending" }] }, true)

/-- The WHERE clause of remove_friend: an accepted row between the two ids
in either direction. -/
def removeMatch (user_id friend_id : Nat) (f : Friend) : Bool :=
  ((f.user_id == user_id && f.friend_id == friend_id) ||
   (f.user_id == friend_id && f.friend_id == user_id)) && f.status == "accepted"

/-- remove_friend (src/services/user_service.py, lines 115-126): delete the
first accepted row between the two ids, in either direction; `false` with
the store unchanged when none exists. -/
def remove_friend (s : Store) (user_id friend_id : Nat) : Store × Bool :=
  match removeFirst (removeMatch user_id friend_id) s.friends with
  | none => (s, false)
  | some fs => ({ s with friends := fs }, true)

/-- create_post (src/services/post_service.py): insert the row. -/
def create_post (s : Store) (p : Post) : Store :=
  { s with posts := s.posts ++ [p] }

/-- The ORDER BY created_at DESC comparison on posts. -/
def postDesc (a b : Post) : Bool :=
  decide (b.created_at ≤ a.created_at)

/-- get_posts_for_user (src/services/post_service.py): posts of the user,
newest first. -/
def get_posts_for_user (s : Store) (user_id : Nat) : List Post :=
  (s.posts.filter (fun p => p.user_id == user_id)).mergeSort postDesc

/-- get_timeline_posts (src/services/post_service.py, lines 25-35): posts
whose owner is the user or in the caller-supplied friend id list, newest
first.  The friend table plays no part. -/
def get_timeline_posts (s : Store) (user_id : Nat) (friend_ids : List Nat) :
    List Post :=
  let allowed_user_ids := user_id :: friend_ids
  (s.posts.filter (fun p => allowed_user_ids.contains p.user_id)).mergeSort
    postDesc

/-- add_comment (src/services/post_service.py): insert the row. -/
def add_comment (s : Store) (c : Comment) : Store :=
  { s with comments := s.comments ++ [c] }

/-- The ORDER BY created_at ASC comparison on comments. -/
def commentAsc (a b : Comment) : Bool :=
  decide (a.created_at ≤ b.created_at)

/-- get_comments_for_post (src/services/post_service.py, lines 45-54):
comments whose post_id matches, oldest first. -/
def get_comments_for_post (s : Store) (post_id : Nat) : List Comment :=
  (s.comments.filter (fun c => c.post_id == post_id)).mergeSort commentAsc

/-- add_reply (src/services/post_service.py): insert the row, identical to
add_comment. -/
def add_reply (s : Store) (c : Comment) : Store :=
  add_comment s c

/-- get_replies_for_comment (src/services/post_service.py): comments whose
parent_comment_id matches, oldest first. -/
def get_replies_for_comment (s : Store) (comment_id : Nat) : List Comment :=
  (s.comments.filter (fun c => c.parent_comment_id == some comment_id)).mergeSort
    commentAsc

/-- delete_post (src/services/post_service.py, lines 76-82): primary-key
lookup, delete the row when present; comments are untouched. -/
def delete_post (s : Store) (post_id : Nat) : Store × Bool :=
  match removeFirst (fun p => p.id == post_id) s.posts with
  | none => (s, false)
  | some ps => ({ s with posts := ps }, true)

/-- delete_comment (src/services/post_service.py): primary-key lookup,
delete the row when present; replies are untouched. -/
def delete_comment (s : Store) (comment_id : Nat) : Store × Bool :=
  match removeFirst (fun c => c.id == comment_id) s.comments with
  | none => (s, false)
  | some cs => ({ s with comments := cs }, true)

/-- Twenty-four hours in seconds. -/
def hours24 : Nat := 86400

/-- Story construction (src/models/story.py): created_at is the creation
instant and expires_at is fixed there and then as created + 24 hours. -/
def mkStory (id user_id : Nat) (media_url media_type : String) (now : Nat) :
    Story :=
  { id := id, user_id := user_id, media_url := media_url,
    media_type := media_type, created_at := now, expires_at := now + hours24 }

/-- create_story (src/services/story_service.py): insert the row. -/
def create_story (s : Store) (st : Story) : Store :=
  { s with stories := s.stories ++ [st] }

/-- get_stories_for_user (src/services/story_service.py, lines 14-37):
collect the friend ids of accepted rows directed user_id → friend, then
return the stories owned by the user or one of those ids whose expiry lies
strictly after `now`. -/
def get_stories_for_user (s : Store) (user_id : Nat) (now : Nat) :
    List Story :=
  let friend_ids := (s.friends.filter (fun f =>
    f.user_id == user_id && f.status == "accepted")).map Friend.friend_id
  let allowed_user_ids := user_id :: friend_ids
  s.stories.filter (fun st =>
    allowed_user_ids.contains st.user_id && decide (now < st.expires_at))

/-- One call to any store-mutating service function of the three services. -/
inductive Step : Store → Store → Prop where
  | createUser (s : Store) (u : User) : Step s (create_user s u)
  | updateUser (s : Store) (uid : Nat) (p : UserPatch) :
      Step s (update_user s uid p).1
  | deleteUser (s : Store) (uid : Nat) : Step s (delete_user s uid).1
  | sendRequest (s : Store) (nid a b : Nat) :
      Step s (send_friend_request s nid a b).1
  | acceptRequest (s : Store) (a b : Nat) :
      Step s (accept_friend_request s a b).1
  | rejectRequest (s : Store) (a b : Nat) :
      Step s (reject_friend_request s a b).1
  | removeFriendCall (s : Store) (a b : Nat) : Step s (remove_friend s a b).1
  | createPost (s : Store) (p : Post) : Step s (create_post s p)
  | deletePost (s : Store) (pid : Nat) : Step s (delete_post s pid).1
  | addCommentCall (s : Store) (c : Comment) : Step s (add_comment s c)
  | addReplyCall (s : Store) (c : Comment) : Step s (add_reply s c)
  | deleteComment (s : Store) (cid : Nat) : Step s (delete_comment s cid).1
  | createStoryCall (s : Store) (id uid : Nat) (url mt : String) (now : Nat) :
      Step s (create_story s (mkStory id uid url mt now))

/-- Stores reachable from the empty store by a sequence of service calls. -/
inductive Reach : Store → Prop where
  | init : Reach emptyStore
  | step {s t : Store} : Reach s → Step s t → Reach t

/-- Every friend row carries status pending or accepted. -/
def statusOK (s : Store) : Prop :=
  ∀ f ∈ s.friends, f.status = "pending" ∨ f.status = "accepted"

theorem updateFirst_eq_none {α : Type} {p : α → Bool} {g : α → α}
    {l : List α} :
    updateFirst p g l = none ↔ ∀ x ∈ l, p x = false := by
  induction l with
  | nil => simp [updateFirst]
  | cons a as ih =>
    by_cases hp : p a
    · simp [updateFirst, hp]
    · simp [updateFirst, hp, ih]

theorem updateFirst_eq_some {α : Type} {p : α → Bool} {g : α → α}
    {l l' : List α} (h : updateFirst p g l = some l') :
    ∃ l₁ x l₂, l = l₁ ++ x :: l₂ ∧ p x = true ∧ (∀ y ∈ l₁, p y = false) ∧
      l' = l₁ ++ g x :: l₂ := by
  induction l generalizing l' with
  | nil => simp [updateFirst] at h
  | cons a as ih =>
    by_cases hp : p a
    · simp only [updateFirst, hp, if_pos] at h
      exact ⟨[], a, as, by simp, hp, by simp, by simp [← Option.some_inj.mp h]⟩
    · simp only [updateFirst, hp, if_neg, Bool.false_eq_true,
        not_false_iff, Option.map_eq_some'] at h
      obtain ⟨m, hm, rfl⟩ := h
      obtain ⟨l₁, x, l₂, rfl, hx, hnone, rfl⟩ := ih hm
      refine ⟨a :: l₁, x, l₂, rfl, hx, ?_, rfl⟩
      intro y hy
      rcases List.mem_cons.mp hy with rfl | hy
      · exact Bool.eq_false_iff.mpr hp
      · exact hnone y hy

theorem removeFirst_eq_none {α : Type} {p : α → Bool} {l : List α} :
    removeFirst p l = none ↔ ∀ x ∈ l, p x = false := by
  induction l with
  | nil => simp [removeFirst]
  | cons a as ih =>
    by_cases hp : p a
    · simp [removeFirst, hp]
    · simp [removeFirst, hp, ih]

theorem removeFirst_eq_some {α : Type} {p : α → Bool} {l l' : List α}
    (h : removeFirst p l = some l') :
    ∃ l₁ x l₂, l = l₁ ++ x :: l₂ ∧ p x = true ∧ (∀ y ∈ l₁, p y = false) ∧
      l' = l₁ ++ l₂ := by
  induction l generalizing l' with
  | nil => simp [removeFirst] at h
  | cons a as ih =>
    by_cases hp : p a
    · simp only [removeFirst, hp, if_pos] at h
      exact ⟨[], a, as, by simp, hp, by simp, by simp [← Option.some_inj.mp h]⟩
    · simp only [removeFirst, hp, if_neg, Bool.false_eq_true,
        not_false_iff, Option.map_eq_some'] at h
      obtain ⟨m, hm, rfl⟩ := h
      obtain ⟨l₁, x, l₂, rfl, hx, hnone, rfl⟩ := ih hm
      refine ⟨a :: l₁, x, l₂, rfl, hx, ?_, rfl⟩
      intro y hy
      rcases List.mem_cons.mp hy with rfl | hy
      · exact Bool.eq_false_iff.mpr hp
      · exact hnone y hy

theorem mem_get_friends {s : Store} {uid : Nat} {u : User} :
    u ∈ get_friends s uid ↔
      u ∈ s.users ∧ ∃ f ∈ s.friends,
        f.user_id = uid ∧ f.friend_id = u.id ∧ f.status = "accepted" := by
  simp only [get_friends, List.mem_dedup, List.mem_filter, List.any_eq_true,
    Bool.and_eq_true, beq_iff_eq]
  tauto

theorem mem_get_stories {s : Store} {uid now : Nat} {st : Story} :
    st ∈ get_stories_for_user s uid now ↔
      st ∈ s.stories ∧
      (st.user_id = uid ∨ ∃ f ∈ s.friends,
        f.user_id = uid ∧ f.status = "accepted" ∧ f.friend_id = st.user_id) ∧
      now < st.expires_at := by
  simp only [get_stories_for_user, List.mem_filter, Bool.and_eq_true,
    List.contains, List.elem_eq_mem, List.mem_cons, List.mem_map,
    decide_eq_true_eq, beq_iff_eq]
  tauto

theorem mem_get_timeline {s : Store} {uid : Nat} {fids : List Nat}
    {p : Post} :
    p ∈ get_timeline_posts s uid fids ↔
      p ∈ s.posts ∧ (p.user_id = uid ∨ p.user_id ∈ fids) := by
  simp [get_timeline_posts, List.mem_mergeSort, List.mem_filter,
    List.contains, List.elem_eq_mem]

theorem send_snd_eq (s : Store) (nid a b : Nat) :
    (send_friend_request s nid a b).2 =
      !(s.friends.any (fun f => f.user_id == a && f.friend_id == b)) := by
  unfold send_friend_request
  by_cases h : (s.friends.any fun f => f.user_id == a && f.friend_id == b)
    = true <;> simp [h]

theorem send_fst_eq (s : Store) (nid a b : Nat) :
    (send_friend_request s nid a b).1 =
      if (s.friends.any (fun f => f.user_id == a && f.friend_id == b)) = true
      then s
      else { s with friends := s.friends ++
        [{ id := nid, user_id := a, friend_id := b, status := "pending" }] } := by
  unfold send_friend_request
  by_cases h : (s.friends.any fun f => f.user_id == a && f.friend_id == b)
    = true <;> simp [h]

/-- C1: get_friends(user_id) returns exactly the users U for which an
accepted friend row exists with the given user on the requester side
(Friend.user_id = user_id, Friend.friend_id = U.id, status accepted); and
after send-request(A,B) followed by accept(B,A), get-friends(A) contains B
while get-friends(B) does not contain A. -/
theorem C1_get_friends_requester_side :
    (∀ (s : Store) (uid : Nat) (u : User),
      u ∈ get_friends s uid ↔
        u ∈ s.users ∧ ∃ f ∈ s.friends,
          f.user_id = uid ∧ f.friend_id = u.id ∧ f.status = "accepted") ∧
    (∀ (a b : User) (nid : Nat), a.id ≠ b.id →
      b ∈ get_friends
        ((accept_friend_request
          (send_friend_request (create_user (create_user emptyStore a) b)
            nid a.id b.id).1 b.id a.id).1) a.id ∧
      a ∉ get_friends
        ((accept_friend_request
          (send_friend_request (create_user (create_user emptyStore a) b)
            nid a.id b.id).1 b.id a.id).1) b.id) := by
  refine ⟨fun s uid u => mem_get_friends, ?_⟩
  intro a b nid hne
  have h2 :
      (accept_friend_request
        (send_friend_request (create_user (create_user emptyStore a) b)
          nid a.id b.id).1 b.id a.id).1 =
      { users := [a, b],
        friends := [⟨nid, a.id, b.id, "accepted"⟩],
        posts := [], comments := [], stories := [] } := by
    simp [create_user, emptyStore, send_friend_request, accept_friend_request,
      updateFirst, acceptMatch]
  rw [h2]
  constructor
  · exact mem_get_friends.mpr
      ⟨by simp, ⟨nid, a.id, b.id, "accepted"⟩, by simp, rfl, rfl, rfl⟩
  · intro hmem
    obtain ⟨-, f, hf, hfu, -, -⟩ := mem_get_friends.mp hmem
    simp only [List.mem_singleton] at hf
    subst hf
    exact hne (by simpa using hfu)

/-- C1 witness: the scenario instantiated with concrete users 1 and 2. -/
theorem C1_witness :
    let a : User := ⟨1, "ca", "alice", 0⟩
    let b : User := ⟨2, "cb", "bob", 0⟩
    b ∈ get_friends
      ((accept_friend_request
        (send_friend_request (create_user (create_user emptyStore a) b)
          7 a.id b.id).1 b.id a.id).1) a.id ∧
    a ∉ get_friends
      ((accept_friend_request
        (send_friend_request (create_user (create_user emptyStore a) b)
          7 a.id b.id).1 b.id a.id).1) b.id :=
  C1_get_friends_requester_side.2 ⟨1, "ca", "alice", 0⟩ ⟨2, "cb", "bob", 0⟩ 7
    (by decide)

/-- C2: send_friend_request returns false (inserting nothing) exactly when a
row directed user_id → friend_id already exists, of any status; otherwise it
appends the single pending row and returns true.  A reverse-direction row
never blocks: for a ≠ b, a successful send(A,B) leaves the outcome of
send(B,A) unchanged, while an immediate repeat of send(A,B) always fails. -/
theorem C2_send_request_directionality :
    (∀ (s : Store) (nid a b : Nat),
      ((send_friend_request s nid a b).2 = false ↔
        ∃ f ∈ s.friends, f.user_id = a ∧ f.friend_id = b) ∧
      ((∃ f ∈ s.friends, f.user_id = a ∧ f.friend_id = b) →
        (send_friend_request s nid a b).1 = s) ∧
      ((∀ f ∈ s.friends, ¬(f.user_id = a ∧ f.friend_id = b)) →
        (send_friend_request s nid a b).2 = true ∧
        (send_friend_request s nid a b).1.friends =
          s.friends ++ [⟨nid, a, b, "pending"⟩] ∧
        (send_friend_request s nid a b).1.users = s.users ∧
        (send_friend_request s nid a b).1.posts = s.posts ∧
        (send_friend_request s nid a b).1.comments = s.comments ∧
        (send_friend_request s nid a b).1.stories = s.stories)) ∧
    (∀ (s : Store) (nid nid2 a b : Nat), a ≠ b →
      (send_friend_request (send_friend_request s nid a b).1 nid2 b a).2 =
        (send_friend_request s nid2 b a).2) ∧
    (∀ (s : Store) (nid nid2 a b : Nat),
      (send_friend_request (send_friend_request s nid a b).1 nid2 a b).2 =
        false) := by
  have hany : ∀ (s : Store) (a b : Nat),
      (s.friends.any (fun f => f.user_id == a && f.friend_id == b)) = true ↔
        ∃ f ∈ s.friends, f.user_id = a ∧ f.friend_id = b := by
    intro s a b
    simp [List.any_eq_true, Bool.and_eq_true, beq_iff_eq]
  refine ⟨?_, ?_, ?_⟩
  · intro s nid a b
    refine ⟨?_, ?_, ?_⟩
    · rw [send_snd_eq, ← hany s a b]
      cases s.friends.any (fun f => f.user_id == a && f.friend_id == b) <;>
        simp
    · intro hex
      rw [send_fst_eq, if_pos ((hany s a b).mpr hex)]
    · intro hnone
      have h : (s.friends.any (fun f => f.user_id == a && f.friend_id == b))
          = false := by
        by_contra h
        simp only [Bool.not_eq_false] at h
        obtain ⟨f, hf, h1, h2⟩ := (hany s a b).mp h
        exact hnone f hf ⟨h1, h2⟩
      rw [send_snd_eq, send_fst_eq, h]
      simp
  · intro s nid nid2 a b hne
    rw [send_snd_eq, send_snd_eq, send_fst_eq]
    by_cases h : (s.friends.any (fun f => f.user_id == a && f.friend_id == b))
      = true
    · rw [if_pos h]
    · rw [if_neg h]
      have hab : ((a == b : Bool)) = false := beq_eq_false_iff_ne.mpr hne
      simp [List.any_append, hab]
  · intro s nid nid2 a b
    rw [send_snd_eq, send_fst_eq]
    by_cases h : (s.friends.any (fun f => f.user_id == a && f.friend_id == b))
      = true
    · rw [if_pos h]
      simp [h]
    · rw [if_neg h]
      simp [List.any_append]

/-- C2 witness: on the empty store, send(1,2) succeeds and appends the
pending row, a repeat fails, and the reverse send(2,1) is unaffected. -/
theorem C2_witness :
    ((send_friend_request emptyStore 1 1 2).2 = true ∧
      (send_friend_request emptyStore 1 1 2).1.friends =
        emptyStore.friends ++ [⟨1, 1, 2, "pending"⟩] ∧
      (send_friend_request emptyStore 1 1 2).1.users = emptyStore.users ∧
      (send_friend_request emptyStore 1 1 2).1.posts = emptyStore.posts ∧
      (send_friend_request emptyStore 1 1 2).1.comments =
        emptyStore.comments ∧
      (send_friend_request emptyStore 1 1 2).1.stories =
        emptyStore.stories) ∧
    (send_friend_request (send_friend_request emptyStore 1 1 2).1 2 2 1).2 =
      (send_friend_request emptyStore 2 2 1).2 ∧
    (send_friend_request (send_friend_request emptyStore 1 1 2).1 2 1 2).2 =
      false :=
  ⟨(C2_send_request_directionality.1 emptyStore 1 1 2).2.2 (by decide),
   C2_send_request_directionality.2.1 emptyStore 1 2 1 2 (by decide),
   C2_send_request_directionality.2.2 emptyStore 1 2 1 2⟩

/-- C3: accept_friend_request(user_id, friend_id) succeeds exactly when a
pending row directed friend_id → user_id exists; on success it flips the
first such row to accepted and touches nothing else; on failure the store is
returned unchanged. -/
theorem C3_accept_flips_pending_row :
    ∀ (s : Store) (a b : Nat),
      ((accept_friend_request s a b).2 = true ↔
        ∃ f ∈ s.friends,
          f.user_id = b ∧ f.friend_id = a ∧ f.status = "pending") ∧
      ((accept_friend_request s a b).2 = false →
        (accept_friend_request s a b).1 = s) ∧
      ((accept_friend_request s a b).2 = true →
        ∃ l₁ f l₂, s.friends = l₁ ++ f :: l₂ ∧
          f.user_id = b ∧ f.friend_id = a ∧ f.status = "pending" ∧
          (accept_friend_request s a b).1.friends =
            l₁ ++ { f with status := "accepted" } :: l₂ ∧
          (accept_friend_request s a b).1.users = s.users ∧
          (accept_friend_request s a b).1.posts = s.posts ∧
          (accept_friend_request s a b).1.comments = s.comments ∧
          (accept_friend_request s a b).1.stories = s.stories) := by
  intro s a b
  have hmatch : ∀ f : Friend, acceptMatch a b f = true ↔
      f.user_id = b ∧ f.friend_id = a ∧ f.status = "pending" := by
    intro f
    simp [acceptMatch, Bool.and_eq_true, beq_iff_eq, and_assoc]
  unfold accept_friend_request
  cases hu : updateFirst (acceptMatch a b)
      (fun f => { f with status := "accepted" }) s.friends with
  | none =>
    have hall := updateFirst_eq_none.mp hu
    refine ⟨⟨fun h => absurd h (by simp), ?_⟩, fun _ => rfl,
      fun h => absurd h (by simp)⟩
    rintro ⟨f, hf, h1, h2, h3⟩
    have hc := (hmatch f).mpr ⟨h1, h2, h3⟩
    rw [hall f hf] at hc
    exact absurd hc (by simp)
  | some fs =>
    obtain ⟨l₁, f, l₂, hdec, hf, hnone, hfs⟩ := updateFirst_eq_some hu
    obtain ⟨h1, h2, h3⟩ := (hmatch f).mp hf
    subst hfs
    refine ⟨iff_of_true rfl ⟨f, ?_, h1, h2, h3⟩, fun h => absurd h (by simp),
      fun _ => ⟨l₁, f, l₂, hdec, h1, h2, h3, rfl, rfl, rfl, rfl, rfl⟩⟩
    rw [hdec]
    exact List.mem_append_right _ (List.mem_cons_self f l₂)

/-- C3 witness: accepting the request 1→2 from user 2's side. -/
theorem C3_witness :
    let s : Store := ⟨[], [⟨1, 1, 2, "pending"⟩], [], [], []⟩
    ((accept_friend_request s 2 1).2 = true ↔
      ∃ f ∈ s.friends,
        f.user_id = 1 ∧ f.friend_id = 2 ∧ f.status = "pending") ∧
    ((accept_friend_request s 2 1).2 = false →
      (accept_friend_request s 2 1).1 = s) ∧
    ((accept_friend_request s 2 1).2 = true →
      ∃ l₁ f l₂, s.friends = l₁ ++ f :: l₂ ∧
        f.user_id = 1 ∧ f.friend_id = 2 ∧ f.status = "pending" ∧
        (accept_friend_request s 2 1).1.friends =
          l₁ ++ { f with status := "accepted" } :: l₂ ∧
        (accept_friend_request s 2 1).1.users = s.users ∧
        (accept_friend_request s 2 1).1.posts = s.posts ∧
        (accept_friend_request s 2 1).1.comments = s.comments ∧
        (accept_friend_request s 2 1).1.stories = s.stories) :=
  C3_accept_flips_pending_row ⟨[], [⟨1, 1, 2, "pending"⟩], [], [], []⟩ 2 1

/-- C5: remove_friend(user_id, friend_id) succeeds exactly when an accepted
row exists between the two ids in either direction; on success it deletes
the first such row, on failure the store is unchanged, and pending rows
always survive. -/
theorem C5_remove_friend_accepted_either_direction :
    ∀ (s : Store) (a b : Nat),
      ((remove_friend s a b).2 = true ↔
        ∃ f ∈ s.friends, f.status = "accepted" ∧
          ((f.user_id = a ∧ f.friend_id = b) ∨
           (f.user_id = b ∧ f.friend_id = a))) ∧
      ((remove_friend s a b).2 = false → (remove_friend s a b).1 = s) ∧
      ((remove_friend s a b).2 = true →
        ∃ l₁ f l₂, s.friends = l₁ ++ f :: l₂ ∧ f.status = "accepted" ∧
          ((f.user_id = a ∧ f.friend_id = b) ∨
           (f.user_id = b ∧ f.friend_id = a)) ∧
          (remove_friend s a b).1.friends = l₁ ++ l₂ ∧
          (remove_friend s a b).1.users = s.users) ∧
      (∀ f ∈ s.friends, f.status = "pending" →
        f ∈ (remove_friend s a b).1.friends) := by
  intro s a b
  have hmatch : ∀ f : Friend, removeMatch a b f = true ↔
      f.status = "accepted" ∧
        ((f.user_id = a ∧ f.friend_id = b) ∨
         (f.user_id = b ∧ f.friend_id = a)) := by
    intro f
    simp [removeMatch, Bool.and_eq_true, Bool.or_eq_true, beq_iff_eq]
    tauto
  unfold remove_friend
  cases hu : removeFirst (removeMatch a b) s.friends with
  | none =>
    have hall := removeFirst_eq_none.mp hu
    refine ⟨⟨fun h => absurd h (by simp), ?_⟩, fun _ => rfl,
      fun h => absurd h (by simp), fun f hf _ => hf⟩
    rintro ⟨f, hf, hrest⟩
    have hc := (hmatch f).mpr hrest
    rw [hall f hf] at hc
    exact absurd hc (by simp)
  | some fs =>
    obtain ⟨l₁, f, l₂, hdec, hf, hnone, hfs⟩ := removeFirst_eq_some hu
    obtain ⟨h1, h2⟩ := (hmatch f).mp hf
    subst hfs
    refine ⟨iff_of_true rfl ⟨f, ?_, h1, h2⟩, fun h => absurd h (by simp),
      fun _ => ⟨l₁, f, l₂, hdec, h1, h2, rfl, rfl⟩, ?_⟩
    · rw [hdec]
      exact List.mem_append_right _ (List.mem_cons_self f l₂)
    · intro g hg hgp
      have hgf : g ≠ f := by
        intro h
        rw [h, h1] at hgp
        exact absurd hgp (by decide)
      rw [hdec] at hg
      show g ∈ l₁ ++ l₂
      rcases List.mem_append.mp hg with hl | hr
      · exact List.mem_append_left _ hl
      · rcases List.mem_cons.mp hr with h | h
        · exact absurd h hgf
        · exact List.mem_append_right _ h

/-- C5 witness: removing the accepted friendship 1→2 from user 2's side,
with an unrelated pending row surviving. -/
theorem C5_witness :
    let s : Store :=
      ⟨[], [⟨1, 1, 2, "accepted"⟩, ⟨2, 3, 4, "pending"⟩], [], [], []⟩
    ((remove_friend s 2 1).2 = true ↔
      ∃ f ∈ s.friends, f.status = "accepted" ∧
        ((f.user_id = 2 ∧ f.friend_id = 1) ∨
         (f.user_id = 1 ∧ f.friend_id = 2))) ∧
    ((remove_friend s 2 1).2 = false → (remove_friend s 2 1).1 = s) ∧
    ((remove_friend s 2 1).2 = true →
      ∃ l₁ f l₂, s.friends = l₁ ++ f :: l₂ ∧ f.status = "accepted" ∧
        ((f.user_id = 2 ∧ f.friend_id = 1) ∨
         (f.user_id = 1 ∧ f.friend_id = 2)) ∧
        (remove_friend s 2 1).1.friends = l₁ ++ l₂ ∧
        (remove_friend s 2 1).1.users = s.users) ∧
    (∀ f ∈ s.friends, f.status = "pending" →
      f ∈ (remove_friend s 2 1).1.friends) :=
  C5_remove_friend_accepted_either_direction
    ⟨[], [⟨1, 1, 2, "accepted"⟩, ⟨2, 3, 4, "pending"⟩], [], [], []⟩ 2 1

/-- C4: list-visible-stories returns exactly the stories owned by the user
or by an accepted outgoing friend, with expiry strictly after the query
time; expiry is fixed at creation as created + 24 hours, so a story created
at T is returned at T+1h and T+23h59m but not at T+24h00m01s. -/
theorem C4_story_visibility_window :
    (∀ (s : Store) (uid now : Nat) (st : Story),
      st ∈ get_stories_for_user s uid now ↔
        st ∈ s.stories ∧
        (st.user_id = uid ∨ ∃ f ∈ s.friends,
          f.user_id = uid ∧ f.status = "accepted" ∧
          f.friend_id = st.user_id) ∧
        now < st.expires_at) ∧
    (∀ (id uid T : Nat) (url mt : String),
      (mkStory id uid url mt T).expires_at = T + 86400) ∧
    (∀ (s : Store) (id uid T : Nat) (url mt : String),
      mkStory id uid url mt T ∈ s.stories →
        mkStory id uid url mt T ∈ get_stories_for_user s uid (T + 3600) ∧
        mkStory id uid url mt T ∈ get_stories_for_user s uid (T + 86340) ∧
        mkStory id uid url mt T ∉ get_stories_for_user s uid (T + 86401)) := by
  refine ⟨fun s uid now st => mem_get_stories,
    fun id uid T url mt => rfl, ?_⟩
  intro s id uid T url mt hmem
  refine ⟨mem_get_stories.mpr ⟨hmem, Or.inl rfl, ?_⟩,
    mem_get_stories.mpr ⟨hmem, Or.inl rfl, ?_⟩, ?_⟩
  · show T + 3600 < T + hours24
    simp only [hours24]
    omega
  · show T + 86340 < T + hours24
    simp only [hours24]
    omega
  · intro hin
    have hlt := (mem_get_stories.mp hin).2.2
    simp only [mkStory, hours24] at hlt
    omega

/-- C4 witness: a concrete singleton-story store, queried at the three
offsets. -/
theorem C4_witness :
    mkStory 1 1 "u" "image" 0 ∈
      (⟨[], [], [], [], [mkStory 1 1 "u" "image" 0]⟩ : Store).stories ∧
    (mkStory 1 1 "u" "image" 0 ∈
      get_stories_for_user ⟨[], [], [], [], [mkStory 1 1 "u" "image" 0]⟩ 1
        (0 + 3600) ∧
    mkStory 1 1 "u" "image" 0 ∈
      get_stories_for_user ⟨[], [], [], [], [mkStory 1 1 "u" "image" 0]⟩ 1
        (0 + 86340) ∧
    mkStory 1 1 "u" "image" 0 ∉
      get_stories_for_user ⟨[], [], [], [], [mkStory 1 1 "u" "image" 0]⟩ 1
        (0 + 86401)) :=
  ⟨List.mem_singleton.mpr rfl,
   C4_story_visibility_window.2.2 ⟨[], [], [], [], [mkStory 1 1 "u" "image" 0]⟩
     1 1 0 "u" "image" (List.mem_singleton.mpr rfl)⟩

/-- C7: get_timeline_posts returns exactly the posts whose owner is the
user or in the caller-supplied friend id list, ordered newest first, and it
reads nothing but the post table: the result is the same for any store with
the same posts. -/
theorem C7_timeline_caller_supplied :
    ∀ (s : Store) (uid : Nat) (fids : List Nat),
      (∀ p : Post, p ∈ get_timeline_posts s uid fids ↔
        p ∈ s.posts ∧ (p.user_id = uid ∨ p.user_id ∈ fids)) ∧
      (get_timeline_posts s uid fids).Perm
        (s.posts.filter
          (fun p => decide (p.user_id = uid ∨ p.user_id ∈ fids))) ∧
      (get_timeline_posts s uid fids).Pairwise
        (fun a b => b.created_at ≤ a.created_at) ∧
      (∀ s' : Store, s.posts = s'.posts →
        get_timeline_posts s uid fids = get_timeline_posts s' uid fids) := by
  intro s uid fids
  have hdef : get_timeline_posts s uid fids =
      (s.posts.filter (fun p => (uid :: fids).contains p.user_id)).mergeSort
        postDesc := rfl
  have hfil : s.posts.filter (fun p => (uid :: fids).contains p.user_id) =
      s.posts.filter (fun p => decide (p.user_id = uid ∨ p.user_id ∈ fids)) :=
    List.filter_congr (fun p _ => by
      simp [List.contains, List.elem_eq_mem, decide_eq_decide, List.mem_cons])
  refine ⟨fun p => mem_get_timeline, ?_, ?_, ?_⟩
  · rw [hdef, ← hfil]
    exact List.mergeSort_perm _ _
  · have htrans : ∀ a b c : Post, postDesc a b → postDesc b c → postDesc a c := by
      intro a b c hab hbc
      simp only [postDesc, decide_eq_true_eq] at *
      omega
    have htotal : ∀ a b : Post, postDesc a b || postDesc b a := by
      intro a b
      simp only [postDesc, Bool.or_eq_true, decide_eq_true_eq]
      omega
    have hs := @List.sorted_mergeSort Post postDesc htrans htotal
      (s.posts.filter (fun p => (uid :: fids).contains p.user_id))
    rw [hdef]
    exact List.Pairwise.imp (fun h => by simpa [postDesc] using h) hs
  · intro s' hp
    rw [hdef, hp]
    rfl

/-- C7 witness: two stores with the same posts but different friend tables
yield the same timeline. -/
theorem C7_witness :
    get_timeline_posts
      (⟨[], [], [⟨1, 1, "a", none, none, 5, 5⟩,
        ⟨2, 2, "b", none, none, 3, 3⟩], [], []⟩ : Store) 1 [2] =
    get_timeline_posts
      (⟨[], [⟨9, 1, 2, "accepted"⟩], [⟨1, 1, "a", none, none, 5, 5⟩,
        ⟨2, 2, "b", none, none, 3, 3⟩], [], []⟩ : Store) 1 [2] :=
  (C7_timeline_caller_supplied
    ⟨[], [], [⟨1, 1, "a", none, none, 5, 5⟩,
      ⟨2, 2, "b", none, none, 3, 3⟩], [], []⟩ 1 [2]).2.2.2
    ⟨[], [⟨9, 1, 2, "accepted"⟩], [⟨1, 1, "a", none, none, 5, 5⟩,
      ⟨2, 2, "b", none, none, 3, 3⟩], [], []⟩ rfl

/-- C8: deleting an existing post returns true, leaves every comment row in
place, and removes only the post itself; fetching the comments of the
deleted post afterwards still returns them all. -/
theorem C8_delete_post_orphans_comments :
    ∀ (s : Store) (pid : Nat), (∃ p ∈ s.posts, p.id = pid) →
      (delete_post s pid).2 = true ∧
      (delete_post s pid).1.comments = s.comments ∧
      get_comments_for_post (delete_post s pid).1 pid =
        get_comments_for_post s pid ∧
      (∃ l₁ p l₂, s.posts = l₁ ++ p :: l₂ ∧ p.id = pid ∧
        (delete_post s pid).1.posts = l₁ ++ l₂) ∧
      (∀ q ∈ s.posts, q.id ≠ pid → q ∈ (delete_post s pid).1.posts) := by
  intro s pid hex
  unfold delete_post
  cases hu : removeFirst (fun p => p.id == pid) s.posts with
  | none =>
    obtain ⟨p, hp, hpid⟩ := hex
    have hall := removeFirst_eq_none.mp hu
    exact absurd (hall p hp) (by simp [hpid])
  | some ps =>
    obtain ⟨l₁, p, l₂, hdec, hp, hnone, hps⟩ := removeFirst_eq_some hu
    have hpid : p.id = pid := by simpa [beq_iff_eq] using hp
    subst hps
    refine ⟨rfl, rfl, rfl, ⟨l₁, p, l₂, hdec, hpid, rfl⟩, ?_⟩
    intro q hq hqid
    have hqp : q ≠ p := fun h => hqid (h ▸ hpid)
    rw [hdec] at hq
    show q ∈ l₁ ++ l₂
    rcases List.mem_append.mp hq with hl | hr
    · exact List.mem_append_left _ hl
    · rcases List.mem_cons.mp hr with h | h
      · exact absurd h hqp
      · exact List.mem_append_right _ h

/-- C8 witness: a store with one post and one comment referencing it. -/
theorem C8_witness :
    let s : Store := ⟨[], [], [⟨1, 1, "hi", none, none, 0, 0⟩],
      [⟨1, 1, 2, none, "nice", 0⟩], []⟩
    (∃ p ∈ s.posts, p.id = 1) ∧
    ((delete_post s 1).2 = true ∧
      (delete_post s 1).1.comments = s.comments ∧
      get_comments_for_post (delete_post s 1).1 1 =
        get_comments_for_post s 1 ∧
      (∃ l₁ p l₂, s.posts = l₁ ++ p :: l₂ ∧ p.id = 1 ∧
        (delete_post s 1).1.posts = l₁ ++ l₂) ∧
      (∀ q ∈ s.posts, q.id ≠ 1 → q ∈ (delete_post s 1).1.posts)) :=
  ⟨⟨⟨1, 1, "hi", none, none, 0, 0⟩, List.mem_singleton.mpr rfl, rfl⟩,
   C8_delete_post_orphans_comments
     ⟨[], [], [⟨1, 1, "hi", none, none, 0, 0⟩],
       [⟨1, 1, 2, none, "nice", 0⟩], []⟩ 1
     ⟨⟨1, 1, "hi", none, none, 0, 0⟩, List.mem_singleton.mpr rfl, rfl⟩⟩

theorem mem_of_mem_append_cons {α : Type} {l₁ l₂ : List α} {x y : α}
    (h : y ∈ l₁ ++ x :: l₂) (hne : y ≠ x) : y ∈ l₁ ++ l₂ := by
  rcases List.mem_append.mp h with h1 | h2
  · exact List.mem_append_left _ h1
  · rcases List.mem_cons.mp h2 with h3 | h3
    · exact absurd h3 hne
    · exact List.mem_append_right _ h3

theorem statusOK_of_friends_eq {s t : Store} (h : t.friends = s.friends)
    (hs : statusOK s) : statusOK t := by
  intro f hf
  exact hs f (h ▸ hf)

theorem update_user_friends (s : Store) (uid : Nat) (p : UserPatch) :
    (update_user s uid p).1.friends = s.friends := by
  unfold update_user
  split <;> rfl

theorem delete_user_friends (s : Store) (uid : Nat) :
    (delete_user s uid).1.friends = s.friends := by
  unfold delete_user
  split <;> rfl

theorem delete_post_friends (s : Store) (pid : Nat) :
    (delete_post s pid).1.friends = s.friends := by
  unfold delete_post
  split <;> rfl

theorem delete_comment_friends (s : Store) (cid : Nat) :
    (delete_comment s cid).1.friends = s.friends := by
  unfold delete_comment
  split <;> rfl

theorem statusOK_send (s : Store) (nid a b : Nat) (h : statusOK s) :
    statusOK (send_friend_request s nid a b).1 := by
  rw [send_fst_eq]
  split
  · exact h
  · intro f hf
    rcases List.mem_append.mp hf with hl | hr
    · exact h f hl
    · rw [List.mem_singleton.mp hr]
      exact Or.inl rfl

theorem statusOK_accept (s : Store) (a b : Nat) (h : statusOK s) :
    statusOK (accept_friend_request s a b).1 := by
  unfold accept_friend_request
  cases hu : updateFirst (acceptMatch a b)
      (fun f => { f with status := "accepted" }) s.friends with
  | none => exact h
  | some fs =>
    obtain ⟨l₁, x, l₂, hdec, hx, hnone, hfs⟩ := updateFirst_eq_some hu
    subst hfs
    intro f hf
    rcases List.mem_append.mp hf with hl | hr
    · exact h f (by rw [hdec]; exact List.mem_append_left _ hl)
    · rcases List.mem_cons.mp hr with h3 | h3
      · rw [h3]
        exact Or.inr rfl
      · refine h f ?_
        rw [hdec]
        exact List.mem_append_right _ (List.mem_cons_of_mem _ h3)

theorem statusOK_reject (s : Store) (a b : Nat) (h : statusOK s) :
    statusOK (reject_friend_request s a b).1 := by
  unfold reject_friend_request
  cases hu : removeFirst (acceptMatch a b) s.friends with
  | none => exact h
  | some fs =>
    obtain ⟨l₁, x, l₂, hdec, hx, hnone, hfs⟩ := removeFirst_eq_some hu
    subst hfs
    intro f hf
    rcases List.mem_append.mp hf with hl | hr
    · exact h f (by rw [hdec]; exact List.mem_append_left _ hl)
    · refine h f ?_
      rw [hdec]
      exact List.mem_append_right _ (List.mem_cons_of_mem _ hr)

theorem statusOK_remove (s : Store) (a b : Nat) (h : statusOK s) :
    statusOK (remove_friend s a b).1 := by
  unfold remove_friend
  cases hu : removeFirst (removeMatch a b) s.friends with
  | none => exact h
  | some fs =>
    obtain ⟨l₁, x, l₂, hdec, hx, hnone, hfs⟩ := removeFirst_eq_some hu
    subst hfs
    intro f hf
    rcases List.mem_append.mp hf with hl | hr
    · exact h f (by rw [hdec]; exact List.mem_append_left _ hl)
    · refine h f ?_
      rw [hdec]
      exact List.mem_append_right _ (List.mem_cons_of_mem _ hr)

theorem statusOK_step {s t : Store} (hst : Step s t) (h : statusOK s) :
    statusOK t := by
  cases hst with
  | createUser u => exact h
  | updateUser uid p =>
    exact statusOK_of_friends_eq (update_user_friends s uid p) h
  | deleteUser uid =>
    exact statusOK_of_friends_eq (delete_user_friends s uid) h
  | sendRequest nid a b => exact statusOK_send s nid a b h
  | acceptRequest a b => exact statusOK_accept s a b h
  | rejectRequest a b => exact statusOK_reject s a b h
  | removeFriendCall a b => exact statusOK_remove s a b h
  | createPost p => exact h
  | deletePost pid =>
    exact statusOK_of_friends_eq (delete_post_friends s pid) h
  | addCommentCall c => exact h
  | addReplyCall c => exact h
  | deleteComment cid =>
    exact statusOK_of_friends_eq (delete_comment_friends s cid) h
  | createStoryCall id uid url mt now => exact h

/-- C9: in every store reachable from the empty store through the service
operations, every friend row's status is pending or accepted; the blocked
status is never produced. -/
theorem C9_blocked_never_produced :
    ∀ s : Store, Reach s →
      statusOK s ∧ ∀ f ∈ s.friends, f.status ≠ "blocked" := by
  intro s hs
  have hok : statusOK s := by
    induction hs with
    | init => exact fun f hf => absurd hf (List.not_mem_nil f)
    | step hr hstep ih => exact statusOK_step hstep ih
  refine ⟨hok, fun f hf hb => ?_⟩
  rcases hok f hf with h | h <;> rw [hb] at h <;> exact absurd h (by decide)

/-- C9 witness: the store reached by a single send-request call. -/
theorem C9_witness :
    statusOK (send_friend_request emptyStore 1 1 2).1 ∧
      ∀ f ∈ (send_friend_request emptyStore 1 1 2).1.friends,
        f.status ≠ "blocked" :=
  C9_blocked_never_produced (send_friend_request emptyStore 1 1 2).1
    (Reach.step Reach.init (Step.sendRequest emptyStore 1 1 2))

/-- C10: remove_friend deletes at most one friend row; when accepted rows
exist in both directions between two distinct users, one of them survives
the call, so the pair still appears in one side's get_friends result. -/
theorem C10_remove_friend_at_most_one_row :
    (∀ (s : Store) (a b : Nat),
      s.friends.length ≤ (remove_friend s a b).1.friends.length + 1) ∧
    (∀ (s : Store) (a b : Nat) (ua ub : User) (f g : Friend),
      a ≠ b → ua ∈ s.users → ua.id = a → ub ∈ s.users → ub.id = b →
      f ∈ s.friends → f.user_id = a → f.friend_id = b →
      f.status = "accepted" →
      g ∈ s.friends → g.user_id = b → g.friend_id = a →
      g.status = "accepted" →
      (∃ k ∈ (remove_friend s a b).1.friends, k.status = "accepted" ∧
        ((k.user_id = a ∧ k.friend_id = b) ∨
         (k.user_id = b ∧ k.friend_id = a))) ∧
      (ub ∈ get_friends (remove_friend s a b).1 a ∨
       ua ∈ get_friends (remove_friend s a b).1 b)) := by
  constructor
  · intro s a b
    unfold remove_friend
    cases hu : removeFirst (removeMatch a b) s.friends with
    | none => exact Nat.le_succ _
    | some fs =>
      obtain ⟨l₁, x, l₂, hdec, hx, hnone, hfs⟩ := removeFirst_eq_some hu
      subst hfs
      rw [hdec]
      simp only [List.length_append, List.length_cons]
      omega
  · intro s a b ua ub f g hne hua huaid hub hubid hf hfu hff hfs hg hgu hgf
      hgs
    have hfg : f ≠ g := by
      intro h
      rw [h, hgu] at hfu
      exact hne hfu.symm
    unfold remove_friend
    cases hu : removeFirst (removeMatch a b) s.friends with
    | none =>
      have hall := removeFirst_eq_none.mp hu
      have := hall f hf
      rw [show removeMatch a b f = true by
        simp [removeMatch, hfu, hff, hfs]] at this
      exact absurd this (by simp)
    | some fs =>
      obtain ⟨l₁, x, l₂, hdec, hx, hnone, hfs2⟩ := removeFirst_eq_some hu
      subst hfs2
      by_cases hfx : f = x
      · have hgx : g ≠ x := fun h => hfg (hfx.trans h.symm)
        have hgmem : g ∈ l₁ ++ l₂ :=
          mem_of_mem_append_cons (by rw [← hdec]; exact hg) hgx
        refine ⟨⟨g, hgmem, hgs, Or.inr ⟨hgu, hgf⟩⟩, Or.inr ?_⟩
        exact mem_get_friends.mpr ⟨hua, g, hgmem, hgu, hgf.trans huaid.symm,
          hgs⟩
      · have hfmem : f ∈ l₁ ++ l₂ :=
          mem_of_mem_append_cons (by rw [← hdec]; exact hf) hfx
        refine ⟨⟨f, hfmem, hfs, Or.inl ⟨hfu, hff⟩⟩, Or.inl ?_⟩
        exact mem_get_friends.mpr ⟨hub, f, hfmem, hfu, hff.trans hubid.symm,
          hfs⟩

/-- C10 witness: two users with accepted rows in both directions; after
remove_friend(1,2) one row survives and the pair is still visible from one
side. -/
theorem C10_witness :
    let s : Store := ⟨[⟨1, "ca", "alice", 0⟩, ⟨2, "cb", "bob", 0⟩],
      [⟨5, 1, 2, "accepted"⟩, ⟨6, 2, 1, "accepted"⟩], [], [], []⟩
    (∃ k ∈ (remove_friend s 1 2).1.friends, k.status = "accepted" ∧
      ((k.user_id = 1 ∧ k.friend_id = 2) ∨
       (k.user_id = 2 ∧ k.friend_id = 1))) ∧
    ((⟨2, "cb", "bob", 0⟩ : User) ∈ get_friends (remove_friend s 1 2).1 1 ∨
     (⟨1, "ca", "alice", 0⟩ : User) ∈ get_friends (remove_friend s 1 2).1 2) :=
  C10_remove_friend_at_most_one_row.2
    ⟨[⟨1, "ca", "alice", 0⟩, ⟨2, "cb", "bob", 0⟩],
      [⟨5, 1, 2, "accepted"⟩, ⟨6, 2, 1, "accepted"⟩], [], [], []⟩
    1 2 ⟨1, "ca", "alice", 0⟩ ⟨2, "cb", "bob", 0⟩
    ⟨5, 1, 2, "accepted"⟩ ⟨6, 2, 1, "accepted"⟩
    (by decide) (by decide) rfl (by decide) rfl
    (by decide) rfl rfl rfl
    (by decide) rfl rfl rfl

/-- The two-user store with the single accepted row 1 → 2, refuting the
symmetric reading of get_friends. -/
def storeCex : Store :=
  ⟨[⟨1, "ca", "alice", 0⟩, ⟨2, "cb", "bob", 0⟩], [⟨5, 1, 2, "accepted"⟩],
    [], [], []⟩

/-- C6 counterexample: in `storeCex` there is an accepted friend row from
user 1 to user 2, yet the user row with id 1 is not in get_friends(2):
get_friends does not check both orderings, so the claim fails as stated. -/
theorem C6_counterexample :
    ¬ (∀ f ∈ storeCex.friends, f.status = "accepted" →
        (∀ u ∈ storeCex.users, u.id = f.friend_id →
          u ∈ get_friends storeCex f.user_id) ∧
        (∀ u ∈ storeCex.users, u.id = f.user_id →
          u ∈ get_friends storeCex f.friend_id)) := by
  decide

/-- C6 (amended): get_friends checks only the requester ordering of the
friend row: for every accepted row from A to B where a user row with id B
exists, get_friends(A) includes that user; the reverse inclusion does not
hold in general. -/
theorem C6_amended_requester_ordering_only :
    ∀ (s : Store) (f : Friend), f ∈ s.friends → f.status = "accepted" →
      ∀ u ∈ s.users, u.id = f.friend_id → u ∈ get_friends s f.user_id := by
  intro s f hf hst u hu hid
  exact mem_get_friends.mpr ⟨hu, f, hf, rfl, hid.symm, hst⟩

/-- C6 amended witness: user 2 is in get_friends(1) in `storeCex`. -/
theorem C6_amended_witness :
    (⟨2, "cb", "bob", 0⟩ : User) ∈ get_friends storeCex 1 :=
  C6_amended_requester_ordering_only storeCex ⟨5, 1, 2, "accepted"⟩
    (by decide) rfl ⟨2, "cb", "bob", 0⟩ (by decide) rfl

end SocialMedia
